import Mathlib

/-!
# Verification of the segmentation + aggregation churn pipeline

Shallow embedding of the churn-analytics pipeline shared by src/app.py
(the dashboard) and src/churn_analysis.py (the console script).

Modelling conventions:
* A customer row is a `CustomerRecord`; per the documented data schema the
  Exited column is 0/1 and is embedded as `Bool` (its pandas sum is the
  count of `true`s).  IsActiveMember is kept as an integer because the
  dict-map applied to it (1 to Active, 0 to Inactive) is partial: any other
  value maps to a missing label.
* Balance is a decimal and is embedded as `ℚ`; Age is an integer (`ℤ`).
* A pandas groupby over a column with missing values drops the rows whose
  key is missing; group keys are therefore `Option String` and grouping
  collects only the `some` keys.
* Python division is fallible (ZeroDivisionError, or NaN under numpy): a
  rate computed by an unguarded division is embedded as `Option ℚ`, `none`
  when the denominator is zero.  Guarded divisions (the pattern
  rate-if-total-positive-else-0) are total and return `ℚ`.
-/

namespace Churn

/-- One row of the dataset, restricted to the fields the pipeline reads. -/
structure CustomerRecord where
  geography : String
  gender : String
  age : ℤ
  balance : ℚ
  isActiveMember : ℤ
  exited : Bool
deriving DecidableEq, Repr

/-- Embedding of age_group from src/app.py lines 57-61 (identical to
create_age_group in src/churn_analysis.py lines 32-37). -/
def age_group (age : ℤ) : String :=
  if age < 30 then "Young (<30)"
  else if age < 45 then "Middle Age (30-45)"
  else if age < 60 then "Senior (45-60)"
  else "Elderly (60+)"

/-- Embedding of balance_segment from src/app.py lines 66-70 (identical to
create_balance_segment in src/churn_analysis.py lines 41-46). -/
def balance_segment (balance : ℚ) : String :=
  if balance = 0 then "Zero Balance"
  else if balance < 50000 then "Low (<50k)"
  else if balance < 100000 then "Medium (50k-100k)"
  else "High (100k+)"

/-- Embedding of the IsActiveMember dict-map of src/app.py line 75 and
src/churn_analysis.py line 50 (1 to Active, 0 to Inactive).  A pandas map
with a dict yields a missing value (NaN) for keys outside the dict,
embedded as `none`. -/
def activity_status (v : ℤ) : Option String :=
  if v = 1 then some "Active"
  else if v = 0 then some "Inactive"
  else none

/-- The grouping columns calc_churn is called with in src/app.py
(Geography, AgeGroup, Gender, BalanceSegment, ActivityStatus). -/
inductive GroupKey where
  | geography
  | ageGroup
  | gender
  | balanceSegment
  | activityStatus
deriving DecidableEq, Repr

/-- The group label a record contributes under a grouping column, after
create_segments (src/app.py lines 53-77) has added the derived columns.
A `none` models a NaN cell (only possible for ActivityStatus). -/
def keyOf : GroupKey → CustomerRecord → Option String
  | .geography, r => some r.geography
  | .ageGroup, r => some (age_group r.age)
  | .gender, r => some r.gender
  | .balanceSegment, r => some (balance_segment r.balance)
  | .activityStatus, r => activity_status r.isActiveMember

/-- One output row of calc_churn (src/app.py lines 82-87): the group key,
Total (count), Churned (sum of Exited), ChurnRate (mean times 100). -/
structure SegmentAggregate where
  segmentValue : String
  total : ℕ
  churned : ℕ
  churnRatePct : ℚ
deriving DecidableEq, Repr

/-- The distinct group keys occurring in a list, as pandas groupby forms
them (one group per distinct present value; output order of groups is a
model artifact — the spec leaves group order unspecified). -/
def dedupKeys : List String → List String
  | [] => []
  | k :: ks => if k ∈ ks then dedupKeys ks else k :: dedupKeys ks

/-- Count of churned records: the sum of the 0/1 Exited column. -/
def churnedCount (recs : List CustomerRecord) : ℕ :=
  (recs.filter (fun r => r.exited)).length

/-- The rows falling into one group of a groupby: the records whose key
under the grouping column equals the given label. -/
def group_of (recs : List CustomerRecord) (k : GroupKey) (v : String) : List CustomerRecord :=
  recs.filter (fun r => keyOf k r = some v)

/-- Embedding of calc_churn from src/app.py lines 82-87: groupby over the
segment column, then count, sum and mean of Exited per group, with the mean
scaled to a percentage.  Rows whose group key is missing are dropped by
groupby; each emitted group is nonempty, so the group mean divides by a
nonzero count (`ℚ` division; the zero-denominator case is unreachable). -/
def calc_churn (recs : List CustomerRecord) (k : GroupKey) : List SegmentAggregate :=
  (dedupKeys (recs.filterMap (keyOf k))).map (fun v =>
    { segmentValue := v
      total := (group_of recs k v).length
      churned := churnedCount (group_of recs k v)
      churnRatePct :=
        (churnedCount (group_of recs k v) : ℚ) / ((group_of recs k v).length : ℚ) * 100 })

/-- The dashboard KPI churn rate, src/app.py lines 139-141: churned divided
by total times 100 if total is positive, else 0. -/
def overall_churn_rate (recs : List CustomerRecord) : ℚ :=
  if recs.length > 0 then (churnedCount recs : ℚ) / (recs.length : ℚ) * 100 else 0

/-- The high-value partition, src/app.py line 312: rows with Balance
strictly above the threshold.  The source instantiates the threshold at
100000; the spec names it as a parameter. -/
def hv_records (recs : List CustomerRecord) (threshold : ℚ) : List CustomerRecord :=
  recs.filter (fun r => threshold < r.balance)

/-- The regular partition, src/app.py line 313: rows with Balance at or
below the threshold. -/
def reg_records (recs : List CustomerRecord) (threshold : ℚ) : List CustomerRecord :=
  recs.filter (fun r => r.balance ≤ threshold)

/-- The dashboard high-value churn rate, src/app.py line 315: guarded by
the partition size, 0 when the partition is empty. -/
def hv_churn_rate (recs : List CustomerRecord) (threshold : ℚ) : ℚ :=
  if (hv_records recs threshold).length > 0 then
    (churnedCount (hv_records recs threshold) : ℚ)
      / ((hv_records recs threshold).length : ℚ) * 100
  else 0

/-- The dashboard regular-partition churn rate, src/app.py line 316. -/
def reg_churn_rate (recs : List CustomerRecord) (threshold : ℚ) : ℚ :=
  if (reg_records recs threshold).length > 0 then
    (churnedCount (reg_records recs threshold) : ℚ)
      / ((reg_records recs threshold).length : ℚ) * 100
  else 0

/-- The balance at risk, src/app.py line 328 and src/churn_analysis.py
line 95: the sum of Balance over the churned rows of the high-value
partition. -/
def balance_at_risk (recs : List CustomerRecord) (threshold : ℚ) : ℚ :=
  (((hv_records recs threshold).filter (fun r => r.exited)).map
    (fun r => r.balance)).sum

/-- The console script overall churn rate, src/churn_analysis.py
lines 55-57: churned divided by total times 100, with NO guard on the
total.  Python and numpy division by a zero denominator raises
ZeroDivisionError or produces NaN, so the computation is embedded as
`Option ℚ`, `none` when the total is 0. -/
def script_churn_rate (recs : List CustomerRecord) : Option ℚ :=
  if recs.length = 0 then none
  else some ((churnedCount recs : ℚ) / (recs.length : ℚ) * 100)

/-- The console script high-value churn rate, src/churn_analysis.py
lines 93-94: the churned count of the high-value partition divided by the
partition size, with NO guard on the size; the threshold is hardcoded to
100000. -/
def script_hv_churn_rate (recs : List CustomerRecord) : Option ℚ :=
  if (hv_records recs 100000).length = 0 then none
  else some ((churnedCount (hv_records recs 100000) : ℚ)
    / ((hv_records recs 100000).length : ℚ) * 100)

/-- The sidebar filter state, src/app.py lines 100-112: four independent
selections, each either the sentinel "All" or a concrete value. -/
structure FilterSet where
  country : String
  ageGroupSel : String
  genderSel : String
  activitySel : String
deriving DecidableEq, Repr

/-- The filter application, src/app.py lines 117-129: each selection other
than "All" adds an equality constraint; constraints compose by AND (the
ActivityStatus column compares the mapped label; a NaN cell equals no
label). -/
def apply_filters (f : FilterSet) (recs : List CustomerRecord) : List CustomerRecord :=
  let step1 := if f.country ≠ "All"
    then recs.filter (fun r => r.geography = f.country) else recs
  let step2 := if f.ageGroupSel ≠ "All"
    then step1.filter (fun r => age_group r.age = f.ageGroupSel) else step1
  let step3 := if f.genderSel ≠ "All"
    then step2.filter (fun r => r.gender = f.genderSel) else step2
  if f.activitySel ≠ "All"
    then step3.filter (fun r => activity_status r.isActiveMember = some f.activitySel)
    else step3

/-- A data source for load_data (src/app.py lines 38-48): either the file
is unreadable (missing file or unparseable format — the CSV reader raises),
or it parses to a table with a given column list.  The claims about load
concern only readability and column presence, so rows are not modelled. -/
inductive Source where
  | unreadable
  | table (cols : List String)
deriving DecidableEq, Repr

/-- The required columns named by the spec for load. -/
def requiredColumns : List String :=
  ["Age", "Balance", "IsActiveMember", "Exited", "Geography", "Gender"]

/-- Embedding of load_data from src/app.py lines 38-48: read the file (an
unreadable source raises, surfaced here as the load error), then drop Year
and Surname if present.  Note the source performs NO required-column
check. -/
def load_data : Source → Except String (List String)
  | .unreadable => .error "DataLoadError"
  | .table cols => .ok ((cols.filter (fun c => c ≠ "Year")).filter (fun c => c ≠ "Surname"))

/-- The column accesses of create_segments (src/app.py lines 53-77) at the
schema level: it reads Age, Balance and IsActiveMember (a missing column
raises KeyError at first use) and adds the three derived columns. -/
def create_segments_cols (cols : List String) : Except String (List String) :=
  if "Age" ∈ cols then
    if "Balance" ∈ cols then
      if "IsActiveMember" ∈ cols then
        .ok (cols ++ ["AgeGroup", "BalanceSegment", "ActivityStatus"])
      else .error "KeyError: IsActiveMember"
    else .error "KeyError: Balance"
  else .error "KeyError: Age"

/-- Rank of the four age-group labels in increasing age order, used to
state monotonicity of age_group. -/
def ageGroupRank (s : String) : ℕ :=
  if s = "Young (<30)" then 0
  else if s = "Middle Age (30-45)" then 1
  else if s = "Senior (45-60)" then 2
  else 3

/-- The 3-record scenario of the spec: (Germany, age 25, balance 0,
exited 0), (France, age 50, balance 120000, exited 1), (Germany, age 70,
balance 60000, exited 1).  Fields the scenario leaves open are fixed
arbitrarily. -/
def sampleRecords : List CustomerRecord :=
  [ { geography := "Germany", gender := "Male", age := 25, balance := 0,
      isActiveMember := 1, exited := false },
    { geography := "France", gender := "Female", age := 50, balance := 120000,
      isActiveMember := 0, exited := true },
    { geography := "Germany", gender := "Male", age := 70, balance := 60000,
      isActiveMember := 1, exited := true } ]

/-- A column list missing the required Age column, used to exercise
load_data. -/
def colsMissingAge : List String :=
  ["Balance", "IsActiveMember", "Exited", "Geography", "Gender"]

/-- A record whose balance is below the high-value threshold. -/
def lowBalanceRecord : CustomerRecord :=
  { geography := "Spain", gender := "Female", age := 40, balance := 500,
    isActiveMember := 1, exited := false }

/-- The France record of the 3-record scenario. -/
def franceRecord : CustomerRecord :=
  { geography := "France", gender := "Female", age := 50, balance := 120000,
    isActiveMember := 0, exited := true }

/-- A record whose IsActiveMember value is neither 0 nor 1. -/
def badActivityRecord : CustomerRecord :=
  { geography := "Germany", gender := "Male", age := 33, balance := 10,
    isActiveMember := 2, exited := false }

end Churn

namespace Churn

lemma mem_dedupKeys (x : String) : ∀ (l : List String), x ∈ dedupKeys l ↔ x ∈ l
  | [] => Iff.rfl
  | k :: ks => by
    rw [dedupKeys]
    by_cases hk : k ∈ ks
    · rw [if_pos hk, mem_dedupKeys x ks, List.mem_cons]
      constructor
      · exact Or.inr
      · rintro (rfl | h)
        · exact hk
        · exact h
    · rw [if_neg hk, List.mem_cons, List.mem_cons, mem_dedupKeys x ks]

lemma nodup_dedupKeys : ∀ (l : List String), (dedupKeys l).Nodup
  | [] => List.nodup_nil
  | k :: ks => by
    rw [dedupKeys]
    by_cases hk : k ∈ ks
    · rw [if_pos hk]
      exact nodup_dedupKeys ks
    · rw [if_neg hk, List.nodup_cons]
      exact ⟨fun h => hk ((mem_dedupKeys k ks).1 h), nodup_dedupKeys ks⟩

lemma length_filter_split {α : Type} (p : α → Bool) :
    ∀ (l : List α),
      (l.filter p).length + (l.filter (fun a => !(p a))).length = l.length
  | [] => rfl
  | a :: l => by
    cases h : p a <;>
      simp [List.filter_cons, h, ← length_filter_split p l] <;> omega

lemma length_group_of (k : GroupKey) (v : String) :
    ∀ (recs : List CustomerRecord),
      (group_of recs k v).length
        = ((recs.filterMap (keyOf k)).filter (fun x => x = v)).length
  | [] => rfl
  | r :: recs => by
    have ih := length_group_of k v recs
    cases h : keyOf k r with
    | none =>
      simp only [group_of, List.filter_cons, List.filterMap_cons, h] at ih ⊢
      simpa [h] using ih
    | some w =>
      by_cases hv : w = v
      · subst hv
        simp only [group_of, List.filter_cons, List.filterMap_cons, h] at ih ⊢
        simp [h, ih]
      · simp only [group_of, List.filter_cons, List.filterMap_cons, h] at ih ⊢
        simp [h, hv, ih]

lemma sum_length_filter_eq :
    ∀ (ks l : List String), ks.Nodup → (∀ x ∈ l, x ∈ ks) →
      (ks.map (fun v => (l.filter (fun x => x = v)).length)).sum = l.length
  | [], l, _, hcov => by
    cases l with
    | nil => rfl
    | cons x xs => exact absurd (hcov x (by simp)) (by simp)
  | v :: ks, l, hnd, hcov => by
    rw [List.nodup_cons] at hnd
    obtain ⟨hv, hnd⟩ := hnd
    have hmap : ∀ x ∈ ks,
        (l.filter (fun y => y = x)).length
          = ((l.filter (fun y => !(decide (y = v)))).filter (fun y => y = x)).length := by
      intro x hx
      rw [List.filter_filter]
      congr 1
      apply List.filter_congr
      intro a _
      by_cases ha : a = x
      · have hxv : ¬(x = v) := fun h => hv (h ▸ hx)
        simp [ha, hxv]
      · simp [ha]
    rw [List.map_cons, List.sum_cons, List.map_congr_left hmap,
      sum_length_filter_eq ks (l.filter (fun y => !(decide (y = v)))) hnd ?hcov]
    · exact length_filter_split (fun y => decide (y = v)) l
    case hcov =>
      intro x hx
      rw [List.mem_filter] at hx
      obtain ⟨hxl, hxv⟩ := hx
      rcases List.mem_cons.1 (hcov x hxl) with rfl | h
      · simp at hxv
      · exact h

end Churn

namespace Churn

lemma sum_totals_eq (recs : List CustomerRecord) (k : GroupKey) :
    ((calc_churn recs k).map SegmentAggregate.total).sum
      = (recs.filterMap (keyOf k)).length := by
  unfold calc_churn
  rw [List.map_map]
  show ((dedupKeys (recs.filterMap (keyOf k))).map
    (fun v => (group_of recs k v).length)).sum = _
  have h2 : (fun v => (group_of recs k v).length)
      = fun v => ((recs.filterMap (keyOf k)).filter (fun x => x = v)).length :=
    funext (fun v => length_group_of k v recs)
  rw [h2]
  exact sum_length_filter_eq _ _ (nodup_dedupKeys _)
    (fun x hx => (mem_dedupKeys x _).2 hx)

lemma length_filterMap_keyOf (k : GroupKey) (hk : k ≠ GroupKey.activityStatus)
    (recs : List CustomerRecord) :
    (recs.filterMap (keyOf k)).length = recs.length := by
  induction recs with
  | nil => rfl
  | cons r recs ih =>
    cases k
    case activityStatus => exact absurd rfl hk
    all_goals simp [keyOf, List.filterMap_cons, ih]

lemma length_filterMap_eq {α β : Type} (f : α → Option β) :
    ∀ (l : List α),
      (l.filterMap f).length = (l.filter (fun a => (f a).isSome)).length
  | [] => rfl
  | a :: l => by
    cases h : f a <;>
      simp [List.filterMap_cons, List.filter_cons, h, length_filterMap_eq f l]

lemma length_filter_lt {α : Type} (p : α → Bool) (l : List α) (a : α)
    (ha : a ∈ l) (hpa : p a = false) : (l.filter p).length < l.length := by
  rw [List.length_filter_lt_length_iff_exists]
  exact ⟨a, ha, by simp [hpa]⟩

lemma balance_at_risk_eq (t : ℚ) :
    ∀ (recs : List CustomerRecord),
      balance_at_risk recs t
        = (recs.map (fun r => if t < r.balance ∧ r.exited = true then r.balance else 0)).sum
  | [] => rfl
  | r :: recs => by
    have ih := balance_at_risk_eq t recs
    simp only [balance_at_risk, hv_records, List.filter_filter] at ih ⊢
    by_cases h1 : t < r.balance <;> cases h2 : r.exited <;>
      simp [List.filter_cons, h1, h2, ih]

lemma calc_churn_sample_geography :
    calc_churn sampleRecords GroupKey.geography =
      [⟨"France", 1, 1, 100⟩, ⟨"Germany", 2, 1, 50⟩] := by
  simp +decide [calc_churn, group_of, dedupKeys, churnedCount, keyOf, sampleRecords]
  norm_num

end Churn

namespace Churn

/-- C3: for every balance b ≥ 0, balance_segment b is exactly one of the
four labels, following the rule balance = 0 to Zero, 0 < balance < 50000 to
Low, 50000 ≤ balance < 100000 to Medium, balance ≥ 100000 to High, with the
equality branch checked first, so balance_segment 0 is the Zero label and
not the Low label. -/
theorem C3_balance_segment_cases (b : ℚ) (_hb : 0 ≤ b) :
    (balance_segment b = "Zero Balance" ∨ balance_segment b = "Low (<50k)" ∨
     balance_segment b = "Medium (50k-100k)" ∨ balance_segment b = "High (100k+)") ∧
    (b = 0 → balance_segment b = "Zero Balance") ∧
    (0 < b → b < 50000 → balance_segment b = "Low (<50k)") ∧
    (50000 ≤ b → b < 100000 → balance_segment b = "Medium (50k-100k)") ∧
    (100000 ≤ b → balance_segment b = "High (100k+)") ∧
    balance_segment 0 = "Zero Balance" := by
  refine ⟨?_, ?_, ?_, ?_, ?_, by norm_num [balance_segment]⟩
  · unfold balance_segment
    split_ifs <;> simp
  · intro h0
    simp [balance_segment, h0]
  · intro h1 h2
    rw [balance_segment, if_neg (by linarith), if_pos h2]
  · intro h1 h2
    rw [balance_segment, if_neg (by linarith), if_neg (by linarith), if_pos h2]
  · intro h1
    rw [balance_segment, if_neg (by linarith), if_neg (by linarith),
      if_neg (by linarith)]

theorem C3_witness :
    balance_segment 7 = "Low (<50k)" ∧ balance_segment 0 = "Zero Balance" :=
  ⟨(C3_balance_segment_cases 7 (by norm_num)).2.2.1 (by norm_num) (by norm_num),
   (C3_balance_segment_cases 7 (by norm_num)).2.2.2.2.2⟩

/-- C4: for every age, age_group maps it to exactly one of the four labels
following the rule age < 30 to Young, 30 ≤ age < 45 to MiddleAge,
45 ≤ age < 60 to Senior, age ≥ 60 to Elderly (no gaps), and the label rank
is monotone in age, so no label reappears after a higher one. -/
theorem C4_age_group_cases (a b : ℤ) (hab : a ≤ b) :
    (age_group a = "Young (<30)" ∨ age_group a = "Middle Age (30-45)" ∨
     age_group a = "Senior (45-60)" ∨ age_group a = "Elderly (60+)") ∧
    (a < 30 → age_group a = "Young (<30)") ∧
    (30 ≤ a → a < 45 → age_group a = "Middle Age (30-45)") ∧
    (45 ≤ a → a < 60 → age_group a = "Senior (45-60)") ∧
    (60 ≤ a → age_group a = "Elderly (60+)") ∧
    ageGroupRank (age_group a) ≤ ageGroupRank (age_group b) := by
  have hrank : ∀ c : ℤ, ageGroupRank (age_group c)
      = if c < 30 then 0 else if c < 45 then 1 else if c < 60 then 2 else 3 := by
    intro c
    unfold age_group
    split_ifs <;> decide
  refine ⟨?_, ?_, ?_, ?_, ?_, ?_⟩
  · unfold age_group
    split_ifs <;> simp
  · intro h
    rw [age_group, if_pos h]
  · intro h1 h2
    rw [age_group, if_neg (by omega), if_pos h2]
  · intro h1 h2
    rw [age_group, if_neg (by omega), if_neg (by omega), if_pos h2]
  · intro h1
    rw [age_group, if_neg (by omega), if_neg (by omega), if_neg (by omega)]
  · rw [hrank a, hrank b]
    split_ifs <;> omega

theorem C4_witness :
    age_group 25 = "Young (<30)" ∧
    ageGroupRank (age_group 25) ≤ ageGroupRank (age_group 70) :=
  ⟨(C4_age_group_cases 25 70 (by decide)).2.1 (by decide),
   (C4_age_group_cases 25 70 (by decide)).2.2.2.2.2⟩

/-- C9: applying the sidebar filters with all four selections set to All
returns the input sequence unchanged (hence order and multiset are
preserved). -/
theorem C9_filter_all_identity (recs : List CustomerRecord) :
    apply_filters
      { country := "All", ageGroupSel := "All", genderSel := "All",
        activitySel := "All" } recs = recs := rfl

/-- C1 counterexample: on the empty (well-typed) input the console script
overall churn rate (src/churn_analysis.py line 57) does not evaluate to 0 —
the unguarded division over a zero total has no value (ZeroDivisionError or
NaN), refuting the claim that every churn-rate computation in the pipeline
has an explicit zero-denominator policy. -/
theorem C1_counterexample :
    script_churn_rate [] = none ∧ script_churn_rate [] ≠ some 0 := by
  constructor
  · rfl
  · intro h
    exact Option.noConfusion h

/-- C1 amended: in the dashboard (src/app.py) the overall churn rate, each
partition churn rate and the balance-at-risk sum all evaluate to 0 on an
empty input or an empty partition and are total; the console script
(src/churn_analysis.py) computes its overall churn rate and high-value
churn rate by unguarded division, which has no value (raises or yields NaN)
when the respective denominator is zero. -/
theorem C1_amended_zero_denominator (recs : List CustomerRecord)
    (hhv : hv_records recs 100000 = []) :
    overall_churn_rate [] = 0 ∧
    hv_churn_rate [] 100000 = 0 ∧
    reg_churn_rate [] 100000 = 0 ∧
    balance_at_risk [] 100000 = 0 ∧
    hv_churn_rate recs 100000 = 0 ∧
    balance_at_risk recs 100000 = 0 ∧
    script_churn_rate [] = none ∧
    script_hv_churn_rate recs = none := by
  refine ⟨rfl, rfl, rfl, rfl, ?_, ?_, rfl, ?_⟩
  · simp [hv_churn_rate, hhv]
  · simp [balance_at_risk, hhv]
  · simp [script_hv_churn_rate, hhv]

theorem C1_witness :
    hv_churn_rate [lowBalanceRecord] 100000 = 0 ∧
    script_hv_churn_rate [lowBalanceRecord] = none :=
  ⟨(C1_amended_zero_denominator [lowBalanceRecord] (by decide)).2.2.2.2.1,
   (C1_amended_zero_denominator [lowBalanceRecord] (by decide)).2.2.2.2.2.2.2⟩

/-- C2 counterexample: a readable source missing the required Age column is
loaded successfully by load_data (src/app.py lines 38-48) — no DataLoadError
is raised at load time, refuting the claim that load fails whenever a
required column is missing. -/
theorem C2_counterexample :
    "Age" ∈ requiredColumns ∧ "Age" ∉ colsMissingAge ∧
    load_data (Source.table colsMissingAge) = Except.ok colsMissingAge := by
  refine ⟨by decide, by decide, rfl⟩

/-- C2 amended: load drops the Year and Surname columns when present and
fails (DataLoadError) exactly when the source is unreadable; it performs no
required-column validation, so a readable source missing a required column
loads successfully and the missing column surfaces later, at its first use
in create_segments (KeyError).  For every readable source — in particular
every source containing the required columns — load succeeds. -/
theorem C2_amended_load_no_column_check (cols : List String) :
    load_data Source.unreadable = Except.error "DataLoadError" ∧
    (∃ out, load_data (Source.table cols) = Except.ok out ∧
      "Year" ∉ out ∧ "Surname" ∉ out ∧
      (∀ c, c ∈ out ↔ (c ∈ cols ∧ c ≠ "Year" ∧ c ≠ "Surname")) ∧
      ("Age" ∉ cols → ∃ e, create_segments_cols out = Except.error e)) := by
  refine ⟨rfl, (cols.filter (fun c => c ≠ "Year")).filter (fun c => c ≠ "Surname"),
    rfl, ?_, ?_, ?_, ?_⟩
  · simp
  · simp
  · intro c
    simp only [List.mem_filter, decide_eq_true_eq]
    tauto
  · intro hAge
    have hout : "Age" ∉ (cols.filter (fun c => c ≠ "Year")).filter (fun c => c ≠ "Surname") := by
      intro h
      exact hAge (List.mem_of_mem_filter (List.mem_of_mem_filter h))
    rw [create_segments_cols, if_neg hout]
    exact ⟨_, rfl⟩

theorem C2_witness :
    ∃ out, load_data (Source.table colsMissingAge) = Except.ok out ∧
      ∃ e, create_segments_cols out = Except.error e := by
  obtain ⟨out, h1, _, _, _, h5⟩ := (C2_amended_load_no_column_check colsMissingAge).2
  exact ⟨out, h1, h5 (by decide)⟩

end Churn

namespace Churn

/-- C5: every SegmentAggregate produced by calc_churn over any well-typed
input and any grouping key satisfies churned ≤ total, churnRatePct in
[0, 100], and churnRatePct = 0 whenever total = 0. -/
theorem C5_aggregate_invariants (recs : List CustomerRecord) (k : GroupKey)
    (agg : SegmentAggregate) (h : agg ∈ calc_churn recs k) :
    agg.churned ≤ agg.total ∧ 0 ≤ agg.churnRatePct ∧ agg.churnRatePct ≤ 100 ∧
    (agg.total = 0 → agg.churnRatePct = 0) := by
  unfold calc_churn at h
  obtain ⟨v, hv, rfl⟩ := List.mem_map.1 h
  have hct : churnedCount (group_of recs k v) ≤ (group_of recs k v).length :=
    List.length_filter_le _ _
  refine ⟨hct, ?_, ?_, ?_⟩
  · positivity
  · rcases Nat.eq_zero_or_pos (group_of recs k v).length with h0 | hpos
    · simp [h0, churnedCount]
    · have hle : (churnedCount (group_of recs k v) : ℚ)
          / ((group_of recs k v).length : ℚ) ≤ 1 := by
        rw [div_le_one (by exact_mod_cast hpos)]
        exact_mod_cast hct
      calc (churnedCount (group_of recs k v) : ℚ)
            / ((group_of recs k v).length : ℚ) * 100
          ≤ 1 * 100 := by
            apply mul_le_mul_of_nonneg_right hle
            norm_num
        _ = 100 := by norm_num
  · intro h0
    have h0' : (group_of recs k v).length = 0 := h0
    simp [h0']

theorem C5_witness :
    (⟨"France", 1, 1, 100⟩ : SegmentAggregate).churned
        ≤ (⟨"France", 1, 1, 100⟩ : SegmentAggregate).total ∧
    0 ≤ (⟨"France", 1, 1, 100⟩ : SegmentAggregate).churnRatePct ∧
    (⟨"France", 1, 1, 100⟩ : SegmentAggregate).churnRatePct ≤ 100 ∧
    ((⟨"France", 1, 1, 100⟩ : SegmentAggregate).total = 0 →
      (⟨"France", 1, 1, 100⟩ : SegmentAggregate).churnRatePct = 0) :=
  C5_aggregate_invariants sampleRecords GroupKey.geography ⟨"France", 1, 1, 100⟩
    (by rw [calc_churn_sample_geography]; exact List.mem_cons_self _ _)

/-- C6: for every well-typed input and every grouping key other than
activityStatus (geography, ageGroup, gender, balanceSegment), the totals of
the aggregates returned by calc_churn sum to the length of the input, and
no group with zero members appears in the output. -/
theorem C6_totals_partition (recs : List CustomerRecord) (k : GroupKey)
    (hk : k ≠ GroupKey.activityStatus) :
    ((calc_churn recs k).map SegmentAggregate.total).sum = recs.length ∧
    ∀ agg ∈ calc_churn recs k, agg.total ≠ 0 := by
  constructor
  · rw [sum_totals_eq]
    exact length_filterMap_keyOf k hk recs
  · intro agg hagg
    unfold calc_churn at hagg
    obtain ⟨v, hv, rfl⟩ := List.mem_map.1 hagg
    have hvmem : v ∈ recs.filterMap (keyOf k) := (mem_dedupKeys v _).1 hv
    obtain ⟨r, hr, hkr⟩ := List.mem_filterMap.1 hvmem
    have hmem : r ∈ group_of recs k v := List.mem_filter.2 ⟨hr, by simp [hkr]⟩
    have : 0 < (group_of recs k v).length :=
      List.length_pos.2 (List.ne_nil_of_mem hmem)
    simp only [ne_eq]
    omega

theorem C6_witness :
    ((calc_churn sampleRecords GroupKey.geography).map SegmentAggregate.total).sum
        = sampleRecords.length ∧
    (⟨"Germany", 2, 1, 50⟩ : SegmentAggregate).total ≠ 0 :=
  ⟨(C6_totals_partition sampleRecords GroupKey.geography (by decide)).1,
   (C6_totals_partition sampleRecords GroupKey.geography (by decide)).2
     ⟨"Germany", 2, 1, 50⟩
     (by rw [calc_churn_sample_geography]; simp)⟩

/-- C7: for every input sequence and every threshold, the high-value /
regular split partitions the records into two disjoint, jointly exhaustive
parts (strictly above vs at-or-below the threshold), each partition churn
rate is 0 when that partition is empty, and the balance at risk is the sum
of balance over churned high-value records. -/
theorem C7_high_value_split (recs : List CustomerRecord) (t : ℚ) :
    (hv_records recs t ++ reg_records recs t).Perm recs ∧
    (∀ r ∈ hv_records recs t, t < r.balance) ∧
    (∀ r ∈ reg_records recs t, r.balance ≤ t) ∧
    (hv_records recs t = [] → hv_churn_rate recs t = 0) ∧
    (reg_records recs t = [] → reg_churn_rate recs t = 0) ∧
    balance_at_risk recs t
      = (recs.map (fun r => if t < r.balance ∧ r.exited = true then r.balance else 0)).sum := by
  have hreg : reg_records recs t = recs.filter (fun r => !(decide (t < r.balance))) := by
    unfold reg_records
    apply List.filter_congr
    intro a _
    rw [← decide_not]
    exact decide_eq_decide.2 not_lt.symm
  refine ⟨?_, ?_, ?_, ?_, ?_, balance_at_risk_eq t recs⟩
  · rw [hreg]
    exact List.filter_append_perm _ recs
  · intro r hr
    have := List.mem_filter.1 hr
    simpa using this.2
  · intro r hr
    have := List.mem_filter.1 hr
    simpa using this.2
  · intro h
    simp [hv_churn_rate, h]
  · intro h
    simp [reg_churn_rate, h]

theorem C7_witness :
    (hv_records sampleRecords 100000 ++ reg_records sampleRecords 100000).Perm
        sampleRecords ∧
    (100000 : ℚ) < franceRecord.balance ∧
    hv_churn_rate [] 100000 = 0 :=
  ⟨(C7_high_value_split sampleRecords 100000).1,
   (C7_high_value_split sampleRecords 100000).2.1 franceRecord (by decide),
   (C7_high_value_split [] 100000).2.2.2.1 rfl⟩

/-- C8: on the 3-record scenario, grouping by geography yields exactly the
Germany aggregate (total 2, churned 1, rate 50) and the France aggregate
(total 1, churned 1, rate 100), and the split at threshold 100000 yields a
high partition of size 1 with churn rate 100 and balance at risk 120000 and
a regular partition of size 2 with churn rate 50. -/
theorem C8_scenario :
    (⟨"Germany", 2, 1, 50⟩ : SegmentAggregate) ∈ calc_churn sampleRecords GroupKey.geography ∧
    (⟨"France", 1, 1, 100⟩ : SegmentAggregate) ∈ calc_churn sampleRecords GroupKey.geography ∧
    (calc_churn sampleRecords GroupKey.geography).length = 2 ∧
    (hv_records sampleRecords 100000).length = 1 ∧
    hv_churn_rate sampleRecords 100000 = 100 ∧
    balance_at_risk sampleRecords 100000 = 120000 ∧
    (reg_records sampleRecords 100000).length = 2 ∧
    reg_churn_rate sampleRecords 100000 = 50 := by
  refine ⟨?_, ?_, ?_, ?_, ?_, ?_, ?_, ?_⟩
  · rw [calc_churn_sample_geography]
    simp
  · rw [calc_churn_sample_geography]
    simp
  · rw [calc_churn_sample_geography]
    rfl
  · decide
  · simp +decide [hv_churn_rate, hv_records, churnedCount, sampleRecords]
  · simp +decide [balance_at_risk, hv_records, sampleRecords]
  · decide
  · simp +decide [reg_churn_rate, reg_records, churnedCount, sampleRecords]
    norm_num

/-- C10: the activity-status derivation is defined only for IsActiveMember
values 0 and 1 — any other value maps to a missing label rather than
failing or defaulting — and records carrying such a value are silently
dropped from an aggregation grouped by activityStatus: the group totals sum
to the count of records with a present label, strictly less than the input
length. -/
theorem C10_activity_status_missing_label (recs : List CustomerRecord)
    (r : CustomerRecord) (hr : r ∈ recs) (h0 : r.isActiveMember ≠ 0)
    (h1 : r.isActiveMember ≠ 1) :
    activity_status r.isActiveMember = none ∧
    ((calc_churn recs GroupKey.activityStatus).map SegmentAggregate.total).sum
      = (recs.filter (fun s => (activity_status s.isActiveMember).isSome)).length ∧
    ((calc_churn recs GroupKey.activityStatus).map SegmentAggregate.total).sum
      < recs.length := by
  have hnone : activity_status r.isActiveMember = none := by
    rw [activity_status, if_neg h1, if_neg h0]
  have hsum : ((calc_churn recs GroupKey.activityStatus).map SegmentAggregate.total).sum
      = (recs.filter (fun s => (activity_status s.isActiveMember).isSome)).length := by
    rw [sum_totals_eq, length_filterMap_eq]
    congr 1
  refine ⟨hnone, hsum, ?_⟩
  rw [hsum]
  exact length_filter_lt _ recs r hr (by simp [hnone])

theorem C10_witness :
    activity_status badActivityRecord.isActiveMember = none ∧
    ((calc_churn [badActivityRecord] GroupKey.activityStatus).map
        SegmentAggregate.total).sum < [badActivityRecord].length :=
  ⟨(C10_activity_status_missing_label [badActivityRecord] badActivityRecord
      (by decide) (by decide) (by decide)).1,
   (C10_activity_status_missing_label [badActivityRecord] badActivityRecord
      (by decide) (by decide) (by decide)).2.2⟩

end Churn
